import Mathlib

/-!
Verification of the RetroGrade Applesoft BASIC toolchain (tokenizer, parser,
tree-walking interpreter, screen buffer) against its specification.

The JavaScript source is shallowly embedded: JS numbers are modelled as
rationals (all verified claims only exercise values on which JS float
arithmetic is exact), JS exceptions as an error result, the singleton
mutable interpreter object as explicit state passing, and the two
potentially non-terminating drivers (RUN line loop, recursive descent
parser) take an explicit fuel argument whose exhaustion is reported by a
result constructor distinct from an error, so that it is never confused
with a caught JS exception.
-/

/-! ## String constants (source text fragments and error messages) -/

def emptyS : String := ""

def nlS : String := "\n"

def spaceS : String := " "

def dollarS : String := "$"

def semiS : String := ";"

def commaS : String := ","

def remS : String := "REM"

def nanS : String := "NaN"

def nullS : String := "null"

def undefinedS : String := "undefined"

def fiveSpacesS : String := "     "

def defaultPromptS : String := "? "

def msgDivZero : String := "?DIVISION BY ZERO ERROR"

def msgNextWithoutFor : String := "?NEXT WITHOUT FOR ERROR"

def msgUndef : String := "?UNDEF\x27D STATEMENT ERROR"

def msgTypeMismatch : String := "?TYPE MISMATCH ERROR"

def msgNoProgram : String := "?NO PROGRAM\n"

def msgSynPre : String := "?SYNTAX ERROR\n"

def inLineS : String := " IN LINE "

def msgUnknownCharPre : String := "Unknown character: \x27"

def msgUnknownCharMid : String := "\x27 at position "

def msgUnknownKeywordPre : String := "Unknown keyword: "

def msgUnexpectedTokenPre : String := "Unexpected token: "

def msgExpectedPre : String := "Expected "

def msgGotMid : String := ", got "

def quoteS : String := " \x27"

def quoteCloseS : String := "\x27"

def msgUnexpectedExprPre : String := "Unexpected token in expression: "

def parenOpenS : String := " ("

def parenCloseS : String := ")"

def msgUnknownOpPre : String := "Unknown operator: "

def msgUnknownUnaryPre : String := "Unknown unary operator: "

def msgUndefinedAst : String := "Cannot read properties of undefined (reading \x27ast\x27)"

def opNeS : String := "<>"

def opLeS : String := "<="

def opGeS : String := ">="

def opEqS : String := "="

def opLtS : String := "<"

def opGtS : String := ">"

def opPlusS : String := "+"

def opMinusS : String := "-"

def opStarS : String := "*"

def opSlashS : String := "/"

def opCaretS : String := "^"

def kwPRINT : String := "PRINT"

def kwLET : String := "LET"

def kwINPUT : String := "INPUT"

def kwIF : String := "IF"

def kwTHEN : String := "THEN"

def kwGOTO : String := "GOTO"

def kwGOSUB : String := "GOSUB"

def kwRETURN : String := "RETURN"

def kwFOR : String := "FOR"

def kwTO : String := "TO"

def kwSTEP : String := "STEP"

def kwNEXT : String := "NEXT"

def kwREM : String := "REM"

def kwEND : String := "END"

def kwLIST : String := "LIST"

def kwRUN : String := "RUN"

def kwNEW : String := "NEW"

def kwHOME : String := "HOME"

def kwAND : String := "AND"

def kwOR : String := "OR"

def kwNOT : String := "NOT"

/-- The closed keyword set of BasicTokenizer.KEYWORDS, in source order. -/
def keywordList : List String :=
  [kwPRINT, kwLET, kwINPUT, kwIF, kwTHEN, kwGOTO, kwGOSUB, kwRETURN,
   kwFOR, kwTO, kwSTEP, kwNEXT, kwREM, kwEND, kwLIST, kwRUN, kwNEW,
   kwHOME, kwAND, kwOR, kwNOT]

/-- BasicTokenizer.OPERATORS, in source order (longest-match-first pairs first). -/
def operatorList : List String :=
  [opNeS, opLeS, opGeS, opEqS, opLtS, opGtS, opPlusS, opMinusS, opStarS,
   opSlashS, opCaretS]

/-- BasicTokenizer.PUNCTUATION. -/
def punctuationList : List Char := ['(', ')', ',', ';', ':']

/-! ## JS values

JS numbers are modelled as rationals together with a collapsed
non-finite value (NaN); every claim verified below exercises only values
on which IEEE double arithmetic agrees with exact rational arithmetic. -/

inductive Value where
  | num (q : ℚ)
  | str (s : String)
  | nan
deriving DecidableEq

/-- JS String.prototype.trim, structurally on the character list (whitespace
stripped from both ends). -/
def jsTrim (s : String) : String :=
  String.mk (((s.data.dropWhile Char.isWhitespace).reverse.dropWhile
    Char.isWhitespace).reverse)

/-- Uppercasing, structurally on the character list. -/
def jsToUpper (s : String) : String := String.mk (s.data.map Char.toUpper)

/-- JS String.prototype.endsWith for the dollar suffix. -/
def endsDollar (s : String) : Bool :=
  match s.data.getLast? with
  | some c => c = '$'
  | none => false

/-- Exact rational addition through Rat.divInt, which normalizes; proved
equal to standard rational addition in qAdd_eq_add below (the standard
operations are irreducible, which blocks kernel evaluation). -/
def qAdd (a b : ℚ) : ℚ := Rat.divInt (a.num * b.den + b.num * a.den) (a.den * b.den)

/-- Exact rational subtraction; see qSub_eq_sub. -/
def qSub (a b : ℚ) : ℚ := Rat.divInt (a.num * b.den - b.num * a.den) (a.den * b.den)

/-- Exact rational multiplication; see qMul_eq_mul. -/
def qMul (a b : ℚ) : ℚ := Rat.divInt (a.num * b.num) (a.den * b.den)

/-- Exact rational division (0 on a zero divisor, as the standard one);
see qDiv_eq_div. -/
def qDiv (a b : ℚ) : ℚ := Rat.divInt (a.num * b.den) (a.den * b.num)

/-- Numeric value of a digit list (base 10). -/
def digitsValN (ds : List Char) : Nat :=
  ds.foldl (fun acc ch => acc * 10 + (ch.toNat - 48)) 0

/-- JS ToString for a number: exact for integral values (the only values the
verified claims print); a non-integral value is rendered num/den, which
approximates the JS decimal rendering and is never exercised by a claim. -/
def numToString (q : ℚ) : String :=
  if q.den = 1 then toString q.num
  else toString q.num ++ opSlashS ++ toString q.den

/-- JS String(value). -/
def valueToString : Value → String
  | .num q => numToString q
  | .str s => s
  | .nan => nanS

/-- Decimal string to rational, for JS ToNumber of a trimmed string:
optional sign, digits, optional fraction; none models NaN. -/
def parseDecimal (cs : List Char) : Option ℚ :=
  let core : List Char → Option ℚ := fun l =>
    let intPart := l.takeWhile Char.isDigit
    let rest := l.dropWhile Char.isDigit
    match rest with
    | [] =>
      if intPart = [] then none else some ((digitsValN intPart : ℕ) : ℚ)
    | c :: rest2 =>
      if c = '.' then
        let frac := rest2.takeWhile Char.isDigit
        if rest2.dropWhile Char.isDigit = [] ∧ (intPart ≠ [] ∨ frac ≠ []) then
          some (Rat.divInt (digitsValN (intPart ++ frac)) ((10 : ℕ) ^ frac.length))
        else none
      else none
  match cs with
  | '+' :: l => core l
  | '-' :: l => (core l).map Neg.neg
  | l => core l

/-- JS ToNumber of a string: empty trims to 0, a plain decimal literal to its
value, anything else to NaN (none). Scientific and hex notation are not
modelled; no verified claim coerces a string to a number. -/
def jsStrToNum (s : String) : Option ℚ :=
  if jsTrim s = emptyS then some 0 else parseDecimal (jsTrim s).data

/-- JS ToNumber of a primitive value; none models NaN. -/
def toNumW : Value → Option ℚ
  | .num q => some q
  | .str s => jsStrToNum s
  | .nan => none

/-- JS binary + : string concatenation when either operand is a string,
numeric addition otherwise. -/
def jsAdd (l r : Value) : Value :=
  match l, r with
  | .str a, _ => .str (a ++ valueToString r)
  | _, .str b => .str (valueToString l ++ b)
  | _, _ =>
    match toNumW l, toNumW r with
    | some a, some b => .num (qAdd a b)
    | _, _ => .nan

/-- JS binary - . -/
def jsSub (l r : Value) : Value :=
  match toNumW l, toNumW r with
  | some a, some b => .num (a - b)
  | _, _ => .nan

/-- JS binary * . -/
def jsMul (l r : Value) : Value :=
  match toNumW l, toNumW r with
  | some a, some b => .num (a * b)
  | _, _ => .nan

/-- JS binary / on the path where the interpreter has already ruled out a
right operand strictly equal to the number 0. A coerced zero divisor
(possible only from a string operand) would give a non-finite JS result,
collapsed to nan; no verified claim reaches it. -/
def jsDiv (l r : Value) : Value :=
  match toNumW l, toNumW r with
  | some a, some b => if b = 0 then .nan else .num (qDiv a b)
  | _, _ => .nan

/-- JS strict equality === on the primitive values the evaluator produces. -/
def jsStrictEq : Value → Value → Bool
  | .num a, .num b => a = b
  | .str a, .str b => a = b
  | _, _ => false

/-- Lexicographic string comparison (JS relational on two strings). -/
def strLtB (a b : String) : Bool :=
  match compare a b with
  | .lt => true
  | _ => false

/-- JS a < b. -/
def jsLt (l r : Value) : Bool :=
  match l, r with
  | .str a, .str b => strLtB a b
  | _, _ =>
    match toNumW l, toNumW r with
    | some a, some b => a < b
    | _, _ => false

/-- JS a > b. -/
def jsGt (l r : Value) : Bool :=
  match l, r with
  | .str a, .str b => strLtB b a
  | _, _ =>
    match toNumW l, toNumW r with
    | some a, some b => b < a
    | _, _ => false

/-- JS a <= b. -/
def jsLe (l r : Value) : Bool :=
  match l, r with
  | .str a, .str b => !strLtB b a
  | _, _ =>
    match toNumW l, toNumW r with
    | some a, some b => a ≤ b
    | _, _ => false

/-- JS a >= b. -/
def jsGe (l r : Value) : Bool :=
  match l, r with
  | .str a, .str b => !strLtB a b
  | _, _ =>
    match toNumW l, toNumW r with
    | some a, some b => b ≤ a
    | _, _ => false

/-- Numeric 1/0 encoding of a comparison result. -/
def boolNum (b : Bool) : Value := if b then .num 1 else .num 0

/-- JS truthiness of an evaluator value (IF condition). -/
def jsTruthy : Value → Bool
  | .num q => q ≠ 0
  | .str s => s ≠ emptyS
  | .nan => false

/-! ## Result type

ok and err model normal return and a thrown JS Error; stuck models a
computation that the JS runtime never completes (exhausted fuel of a
potentially divergent loop, or an await that is never resolved). A JS
catch block handles err but can never observe stuck. -/

inductive Res (α : Type) where
  | ok (a : α)
  | err (m : String)
  | stuck
deriving DecidableEq

/-! ## Tokenizer (BasicTokenizer) -/

inductive TokKind where
  | number
  | string
  | keyword
  | ident
  | op
  | punct
  | eol
  | eof
deriving DecidableEq

/-- Token: kind, numeric value (NUMBER), string value (others), column. -/
structure Token where
  kind : TokKind
  qval : ℚ
  sval : String
  pos : Nat
deriving DecidableEq

def kindName : TokKind → String
  | .number => "NUMBER"
  | .string => "STRING"
  | .keyword => "KEYWORD"
  | .ident => "IDENTIFIER"
  | .op => "OPERATOR"
  | .punct => "PUNCTUATION"
  | .eol => "EOL"
  | .eof => "EOF"

/-- The JS token value rendered into an error message (null for EOL/EOF). -/
def tokValueStr (t : Token) : String :=
  match t.kind with
  | .number => numToString t.qval
  | .eol => nullS
  | .eof => nullS
  | _ => t.sval

/-- BasicTokenizer.readNumber: digits, then at most one decimal point and
further digits; returns the value and the unconsumed suffix. -/
def readNumber (c : Char) (cs : List Char) : ℚ × List Char :=
  let intDigits := c :: cs.takeWhile Char.isDigit
  let rest1 := cs.dropWhile Char.isDigit
  match rest1 with
  | a :: r2 =>
    if a = '.' then
      let fracDigits := r2.takeWhile Char.isDigit
      (Rat.divInt (digitsValN (intDigits ++ fracDigits)) ((10 : ℕ) ^ fracDigits.length),
        r2.dropWhile Char.isDigit)
    else (((digitsValN intDigits : ℕ) : ℚ), a :: r2)
  | [] => (((digitsValN intDigits : ℕ) : ℚ), [])

/-- Word characters: letters, digits, trailing dollar. -/
def isWordChar (ch : Char) : Bool := ch.isAlpha || ch.isDigit || ch = '$'

/-- Non-quote character test used by the string reader. -/
def notQuote (ch : Char) : Bool := ch ≠ '"'

/-- BasicTokenizer.readString: content up to the next quote; an unterminated
string runs to end of line. The opening quote is already consumed. -/
def readStringLit (cs : List Char) : String × List Char :=
  let value := cs.takeWhile notQuote
  let rest :=
    match cs.dropWhile notQuote with
    | _ :: r => r
    | [] => []
  (String.mk value, rest)

/-- BasicTokenizer.readOperator: two-character operators first. -/
def readOperator (c : Char) (cs : List Char) : Option (String × List Char) :=
  match cs with
  | c2 :: r2 =>
    if operatorList.contains (String.mk (c :: [c2])) then
      some (String.mk (c :: [c2]), r2)
    else if operatorList.contains (String.mk [c]) then
      some (String.mk [c], c2 :: r2)
    else none
  | [] =>
    if operatorList.contains (String.mk [c]) then some (String.mk [c], []) else none


/-- BasicTokenizer.tokenize scan loop over the trimmed line, carrying the
current column; always appends a trailing EOL token. The scan consumes at
least one character per step, so the structural fuel (one more than the
number of remaining characters, see tokenize and
tokenizeLoop_no_stuck) is never exhausted. -/
def tokenizeLoop : Nat → List Char → Nat → Res (List Token)
  | 0, _, _ => .stuck
  | _ + 1, [], p => .ok [⟨.eol, 0, emptyS, p⟩]
  | fuel + 1, c :: cs, p =>
    if c.isWhitespace then tokenizeLoop fuel cs (p + 1)
    else if c.isDigit then
      match tokenizeLoop fuel (readNumber c cs).2
          (p + 1 + (cs.length - (readNumber c cs).2.length)) with
      | .ok ts => .ok (⟨.number, (readNumber c cs).1, emptyS, p⟩ :: ts)
      | .err m => .err m
      | .stuck => .stuck
    else if c = '"' then
      match tokenizeLoop fuel (readStringLit cs).2
          (p + 1 + (cs.length - (readStringLit cs).2.length)) with
      | .ok ts => .ok (⟨.string, 0, (readStringLit cs).1, p⟩ :: ts)
      | .err m => .err m
      | .stuck => .stuck
    else if c.isAlpha then
      match tokenizeLoop fuel (cs.dropWhile isWordChar)
          (p + 1 + (cs.length - (cs.dropWhile isWordChar).length)) with
      | .ok ts =>
        let upper := jsToUpper (String.mk (c :: cs.takeWhile isWordChar))
        let kd := if keywordList.contains upper then TokKind.keyword else TokKind.ident
        .ok (⟨kd, 0, upper, p⟩ :: ts)
      | .err m => .err m
      | .stuck => .stuck
    else
      match readOperator c cs with
      | some pr =>
        match tokenizeLoop fuel pr.2 (p + 1 + (cs.length - pr.2.length)) with
        | .ok ts => .ok (⟨.op, 0, pr.1, p⟩ :: ts)
        | .err m => .err m
        | .stuck => .stuck
      | none =>
        if punctuationList.contains c then
          match tokenizeLoop fuel cs (p + 1) with
          | .ok ts => .ok (⟨.punct, 0, String.mk [c], p⟩ :: ts)
          | .err m => .err m
          | .stuck => .stuck
        else .err (msgUnknownCharPre ++ String.mk [c] ++ msgUnknownCharMid ++ toString p)

/-- BasicTokenizer.tokenize: trim, scan, append EOL. -/
def tokenize (line : String) : Res (List Token) :=
  tokenizeLoop ((jsTrim line).data.length + 1) (jsTrim line).data 0

/-! ## AST (BasicParser node shapes) -/

inductive Expr where
  | numLit (value : ℚ)
  | strLit (value : String)
  | varE (name : String)
  | binary (operator : String) (left right : Expr)
  | unary (operator : String) (operand : Expr)
deriving DecidableEq

inductive Stmt where
  | printS (expressions : List Expr) (separators : List String)
  | letS (variableName : String) (value : Expr)
  | inputS (prompt : String) (variableName : String)
  | ifS (condition : Expr) (thenStatement : Stmt)
  | gotoS (lineNumber : ℚ)
  | forS (variableName : String) (startE endE stepE : Expr)
  | nextS (variableName : Option String)
  | rem
  | endS
  | listS (startN endN : Option ℚ)
  | runS
  | newS
  | homeS
deriving DecidableEq

/-- BasicParser.parse result: a numbered program line, an empty line, or an
immediate statement. -/
inductive Ast where
  | programLine (lineNumber : ℚ) (statement : Stmt)
  | empty
  | stmt (s : Stmt)
deriving DecidableEq

/-! ## Parser (BasicParser)

The token cursor is modelled by passing the unconsumed token suffix; the
JS cursor never advances past the final EOL token, so the suffix is never
consumed below one token. Recursive descent gets explicit fuel (the JS
parser can diverge on no input class reachable from the tokenizer, but
fuel keeps every definition total); exhaustion yields stuck, never an
error. -/

def lparenS : String := "("

def rparenS : String := ")"

def eolTok : Token := ⟨.eol, 0, emptyS, 0⟩

def curT (ts : List Token) : Token := ts.headD eolTok

def isAtEndT (ts : List Token) : Bool :=
  (curT ts).kind = TokKind.eol || (curT ts).kind = TokKind.eof

def advanceT (ts : List Token) : List Token :=
  if isAtEndT ts then ts else ts.tail

/-- BasicParser.check. -/
def checkT (kind : TokKind) (v : Option String) (ts : List Token) : Bool :=
  if isAtEndT ts then false
  else if (curT ts).kind ≠ kind then false
  else
    match v with
    | none => true
    | some s => (curT ts).sval = s

def expectMsg (kind : TokKind) (v : Option String) (ts : List Token) : String :=
  msgExpectedPre ++ kindName kind ++
    (match v with
      | some s => quoteS ++ s ++ quoteCloseS
      | none => emptyS) ++ msgGotMid ++ kindName (curT ts).kind

/-- BasicParser.expect: the matched token and the advanced cursor, or the
expected-versus-actual error. -/
def expectT (kind : TokKind) (v : Option String) (ts : List Token) :
    Res (Token × List Token) :=
  if checkT kind v ts then .ok (curT ts, advanceT ts)
  else .err (expectMsg kind v ts)

/-- Error and fuel-exhaustion propagation for parser results. -/
def bindP {α β : Type} (x : Res α) (f : α → Res β) : Res β :=
  match x with
  | .ok a => f a
  | .err m => .err m
  | .stuck => .stuck

/-- Comparison operators accepted by parseComparison, in source order. -/
def compOpsList : List String := [opEqS, opNeS, opLtS, opGtS, opLeS, opGeS]

def addOpsList : List String := [opPlusS, opMinusS]

def mulOpsList : List String := [opStarS, opSlashS]

def parseGoto (ts : List Token) : Res (Stmt × List Token) :=
  bindP (expectT TokKind.keyword (some kwGOTO) ts) fun gr =>
  bindP (expectT TokKind.number none gr.2) fun nr =>
  .ok (Stmt.gotoS nr.1.qval, nr.2)

def parseNext (ts : List Token) : Res (Stmt × List Token) :=
  bindP (expectT TokKind.keyword (some kwNEXT) ts) fun nr =>
  if (curT nr.2).kind = TokKind.ident then
    .ok (Stmt.nextS (some (curT nr.2).sval), advanceT nr.2)
  else .ok (Stmt.nextS none, nr.2)

def parseRem (ts : List Token) : Res (Stmt × List Token) :=
  bindP (expectT TokKind.keyword (some kwREM) ts) fun rr =>
  .ok (Stmt.rem, rr.2)

def parseList (ts : List Token) : Res (Stmt × List Token) :=
  bindP (expectT TokKind.keyword (some kwLIST) ts) fun lr =>
  if (curT lr.2).kind = TokKind.number then
    let s := (curT lr.2).qval
    let ts2 := advanceT lr.2
    if checkT TokKind.op (some opMinusS) ts2 then
      let ts3 := advanceT ts2
      if (curT ts3).kind = TokKind.number then
        .ok (Stmt.listS (some s) (some (curT ts3).qval), advanceT ts3)
      else .ok (Stmt.listS (some s) none, ts3)
    else .ok (Stmt.listS (some s) none, ts2)
  else .ok (Stmt.listS none none, lr.2)

mutual

def parseStatement : Nat → List Token → Res (Stmt × List Token)
  | 0, _ => .stuck
  | f + 1, ts =>
    let t := curT ts
    if t.kind = TokKind.keyword then
      if t.sval = kwPRINT then parsePrint f ts
      else if t.sval = kwLET then parseLet f ts
      else if t.sval = kwINPUT then parseInput f ts
      else if t.sval = kwIF then parseIf f ts
      else if t.sval = kwGOTO then parseGoto ts
      else if t.sval = kwFOR then parseFor f ts
      else if t.sval = kwNEXT then parseNext ts
      else if t.sval = kwREM then parseRem ts
      else if t.sval = kwEND then .ok (Stmt.endS, advanceT ts)
      else if t.sval = kwLIST then parseList ts
      else if t.sval = kwRUN then .ok (Stmt.runS, advanceT ts)
      else if t.sval = kwNEW then .ok (Stmt.newS, advanceT ts)
      else if t.sval = kwHOME then .ok (Stmt.homeS, advanceT ts)
      else .err (msgUnknownKeywordPre ++ t.sval)
    else if t.kind = TokKind.ident then parseLet f ts
    else .err (msgUnexpectedTokenPre ++ kindName t.kind)

def parsePrint : Nat → List Token → Res (Stmt × List Token)
  | 0, _ => .stuck
  | f + 1, ts =>
    bindP (expectT TokKind.keyword (some kwPRINT) ts) fun pr =>
    bindP (parsePrintLoop f [] [] pr.2) fun r =>
    .ok (Stmt.printS r.1.1 r.1.2, r.2)

def parsePrintLoop :
    Nat → List Expr → List String → List Token →
      Res ((List Expr × List String) × List Token)
  | 0, _, _, _ => .stuck
  | f + 1, es, ss, ts =>
    if !isAtEndT ts ∧ (curT ts).kind ≠ TokKind.eol then
      bindP (parseExpression f ts) fun er =>
        if checkT TokKind.punct (some semiS) er.2 then
          parsePrintLoop f (es ++ [er.1]) (ss ++ [semiS]) (advanceT er.2)
        else if checkT TokKind.punct (some commaS) er.2 then
          parsePrintLoop f (es ++ [er.1]) (ss ++ [commaS]) (advanceT er.2)
        else .ok ((es ++ [er.1], ss), er.2)
    else .ok ((es, ss), ts)

def parseLet : Nat → List Token → Res (Stmt × List Token)
  | 0, _ => .stuck
  | f + 1, ts =>
    let ts0 := if checkT TokKind.keyword (some kwLET) ts then advanceT ts else ts
    bindP (expectT TokKind.ident none ts0) fun vr =>
    bindP (expectT TokKind.op (some opEqS) vr.2) fun er =>
    bindP (parseExpression f er.2) fun xr =>
    .ok (Stmt.letS vr.1.sval xr.1, xr.2)

def parseInput : Nat → List Token → Res (Stmt × List Token)
  | 0, _ => .stuck
  | _ + 1, ts =>
    bindP (expectT TokKind.keyword (some kwINPUT) ts) fun ir =>
    let pts :=
      if (curT ir.2).kind = TokKind.string then
        let prompt := (curT ir.2).sval
        let ts2 := advanceT ir.2
        if checkT TokKind.punct (some semiS) ts2 then (prompt, advanceT ts2)
        else if checkT TokKind.punct (some commaS) ts2 then
          (prompt ++ commaS, advanceT ts2)
        else (prompt, ts2)
      else (emptyS, ir.2)
    bindP (expectT TokKind.ident none pts.2) fun vr =>
    .ok (Stmt.inputS pts.1 vr.1.sval, vr.2)

def parseIf : Nat → List Token → Res (Stmt × List Token)
  | 0, _ => .stuck
  | f + 1, ts =>
    bindP (expectT TokKind.keyword (some kwIF) ts) fun ir =>
    bindP (parseExpression f ir.2) fun cr =>
    bindP (expectT TokKind.keyword (some kwTHEN) cr.2) fun tr =>
    if (curT tr.2).kind = TokKind.number then
      .ok (Stmt.ifS cr.1 (Stmt.gotoS (curT tr.2).qval), advanceT tr.2)
    else
      bindP (parseStatement f tr.2) fun sr =>
      .ok (Stmt.ifS cr.1 sr.1, sr.2)

def parseFor : Nat → List Token → Res (Stmt × List Token)
  | 0, _ => .stuck
  | f + 1, ts =>
    bindP (expectT TokKind.keyword (some kwFOR) ts) fun fr =>
    bindP (expectT TokKind.ident none fr.2) fun vr =>
    bindP (expectT TokKind.op (some opEqS) vr.2) fun er =>
    bindP (parseExpression f er.2) fun sr =>
    bindP (expectT TokKind.keyword (some kwTO) sr.2) fun tr =>
    bindP (parseExpression f tr.2) fun endr =>
    if checkT TokKind.keyword (some kwSTEP) endr.2 then
      bindP (parseExpression f (advanceT endr.2)) fun str2 =>
      .ok (Stmt.forS vr.1.sval sr.1 endr.1 str2.1, str2.2)
    else .ok (Stmt.forS vr.1.sval sr.1 endr.1 (Expr.numLit 1), endr.2)

def parseExpression : Nat → List Token → Res (Expr × List Token)
  | 0, _ => .stuck
  | f + 1, ts => parseComparison f ts

def parseComparison : Nat → List Token → Res (Expr × List Token)
  | 0, _ => .stuck
  | f + 1, ts =>
    bindP (parseAddition f ts) fun ar =>
    parseCompRest f ar.1 ar.2

def parseCompRest : Nat → Expr → List Token → Res (Expr × List Token)
  | 0, _, _ => .stuck
  | f + 1, node, ts =>
    if (curT ts).kind = TokKind.op ∧ compOpsList.contains (curT ts).sval then
      bindP (parseAddition f (advanceT ts)) fun rr =>
      parseCompRest f (Expr.binary (curT ts).sval node rr.1) rr.2
    else .ok (node, ts)

def parseAddition : Nat → List Token → Res (Expr × List Token)
  | 0, _ => .stuck
  | f + 1, ts =>
    bindP (parseMultiplication f ts) fun ar =>
    parseAddRest f ar.1 ar.2

def parseAddRest : Nat → Expr → List Token → Res (Expr × List Token)
  | 0, _, _ => .stuck
  | f + 1, node, ts =>
    if (curT ts).kind = TokKind.op ∧ addOpsList.contains (curT ts).sval then
      bindP (parseMultiplication f (advanceT ts)) fun rr =>
      parseAddRest f (Expr.binary (curT ts).sval node rr.1) rr.2
    else .ok (node, ts)

def parseMultiplication : Nat → List Token → Res (Expr × List Token)
  | 0, _ => .stuck
  | f + 1, ts =>
    bindP (parsePrimary f ts) fun ar =>
    parseMulRest f ar.1 ar.2

def parseMulRest : Nat → Expr → List Token → Res (Expr × List Token)
  | 0, _, _ => .stuck
  | f + 1, node, ts =>
    if (curT ts).kind = TokKind.op ∧ mulOpsList.contains (curT ts).sval then
      bindP (parsePrimary f (advanceT ts)) fun rr =>
      parseMulRest f (Expr.binary (curT ts).sval node rr.1) rr.2
    else .ok (node, ts)

def parsePrimary : Nat → List Token → Res (Expr × List Token)
  | 0, _ => .stuck
  | f + 1, ts =>
    let t := curT ts
    if t.kind = TokKind.number then .ok (Expr.numLit t.qval, advanceT ts)
    else if t.kind = TokKind.string then .ok (Expr.strLit t.sval, advanceT ts)
    else if t.kind = TokKind.ident then .ok (Expr.varE t.sval, advanceT ts)
    else if checkT TokKind.punct (some lparenS) ts then
      bindP (parseExpression f (advanceT ts)) fun xr =>
      bindP (expectT TokKind.punct (some rparenS) xr.2) fun cr =>
      .ok (xr.1, cr.2)
    else if checkT TokKind.op (some opMinusS) ts then
      bindP (parsePrimary f (advanceT ts)) fun pr =>
      .ok (Expr.unary opMinusS pr.1, pr.2)
    else
      .err (msgUnexpectedExprPre ++ kindName t.kind ++ parenOpenS ++
        tokValueStr t ++ parenCloseS)

end

/-- BasicParser.parse: empty line, numbered program line, or immediate
statement; tokens after the parsed statement are ignored, as in the
source. -/
def parseTokens (fuel : Nat) (ts : List Token) : Res Ast :=
  if isAtEndT ts then .ok Ast.empty
  else if (curT ts).kind = TokKind.number then
    bindP (parseStatement fuel (advanceT ts)) fun sr =>
    .ok (Ast.programLine (curT ts).qval sr.1)
  else
    bindP (parseStatement fuel ts) fun sr =>
    .ok (Ast.stmt sr.1)

/-- Fuel amply sufficient for any token list: the parser consumes fuel only
along token consumption and fixed-depth descent. -/
def parserFuelFor (ts : List Token) : Nat := ts.length * 40 + 40

/-- Tokenize and parse one source line. -/
def parseOf (line : String) : Res Ast :=
  bindP (tokenize line) fun ts => parseTokens (parserFuelFor ts) ts

/-! ## Interpreter state (BasicInterpreter.state) -/

structure StoredLine where
  source : String
  ast : Stmt
deriving DecidableEq

/-- One active FOR frame (variable, limit, step, jump-back line). -/
structure ForFrame where
  varName : String
  endValue : Value
  stepValue : Value
  bodyStart : ℚ
deriving DecidableEq

/-- The interpreter state: the JS Map program store as an insertion-ordered
association list with unique keys, the variables object likewise, the FOR
stack with its top at the end (JS array push/pop), the line cursor, the
running flag, the pending jump target, the text sent through the two
output callbacks, and the queue of lines the input callback will deliver. -/
structure St where
  program : List (ℚ × StoredLine)
  vars : List (String × Value)
  forStack : List ForFrame
  currentLine : ℚ
  running : Bool
  nextLine : Option ℚ
  output : String
  inputs : List String
deriving DecidableEq

def initialSt : St := ⟨[], [], [], 0, false, none, emptyS, []⟩

def mapHas (m : List (ℚ × StoredLine)) (k : ℚ) : Bool :=
  m.any (fun p => p.1 = k)

def mapGet (m : List (ℚ × StoredLine)) (k : ℚ) : Option StoredLine :=
  match m.find? (fun p => p.1 = k) with
  | some p => some p.2
  | none => none

/-- JS Map.set: replace in place, else append. -/
def mapSet : List (ℚ × StoredLine) → ℚ → StoredLine → List (ℚ × StoredLine)
  | [], k, v => [(k, v)]
  | p :: rest, k, v => if p.1 = k then (k, v) :: rest else p :: mapSet rest k v

/-- JS Map.delete. -/
def mapDelete (m : List (ℚ × StoredLine)) (k : ℚ) : List (ℚ × StoredLine) :=
  m.filter (fun p => p.1 ≠ k)

def lookupVar (vs : List (String × Value)) (n : String) : Option Value :=
  match vs.find? (fun p => p.1 = n) with
  | some p => some p.2
  | none => none

/-- JS object property assignment: replace in place, else append. -/
def setVar : List (String × Value) → String → Value → List (String × Value)
  | [], n, v => [(n, v)]
  | p :: rest, n, v => if p.1 = n then (n, v) :: rest else p :: setVar rest n v

/-- The output callback (BasicScreen.print). -/
def stPrint (t : String) (st : St) : St := {st with output := st.output ++ t}

/-- The outputLine callback (BasicScreen.println). -/
def stPrintln (t : String) (st : St) : St :=
  {st with output := st.output ++ t ++ nlS}

/-- Sequencing in the state-plus-exception model of the JS interpreter:
state mutations made before a throw persist. -/
def bindR {α β : Type} (x : St × Res α) (f : α → St → St × Res β) :
    St × Res β :=
  match x with
  | (st, .ok a) => f a st
  | (st, .err m) => (st, .err m)
  | (st, .stuck) => (st, .stuck)

/-- Default for an unset variable: empty string for a dollar name, 0 else. -/
def vivify (n : String) : Value :=
  if endsDollar n then .str emptyS else .num 0

/-- JS unary minus (ToNumber, then negate). -/
def jsNeg (v : Value) : Value :=
  match toNumW v with
  | some q => .num (-q)
  | none => .nan

/-- The operator switch of BasicInterpreter.evaluate (BINARY case), in
source order; division checks strict equality of the right operand with
the number 0 before dividing. -/
def applyBinary (op : String) (l r : Value) : Res Value :=
  if op = opPlusS then .ok (jsAdd l r)
  else if op = opMinusS then .ok (jsSub l r)
  else if op = opStarS then .ok (jsMul l r)
  else if op = opSlashS then
    if r = Value.num 0 then .err msgDivZero else .ok (jsDiv l r)
  else if op = opEqS then .ok (boolNum (jsStrictEq l r))
  else if op = opNeS then .ok (boolNum (!jsStrictEq l r))
  else if op = opLtS then .ok (boolNum (jsLt l r))
  else if op = opGtS then .ok (boolNum (jsGt l r))
  else if op = opLeS then .ok (boolNum (jsLe l r))
  else if op = opGeS then .ok (boolNum (jsGe l r))
  else .err (msgUnknownOpPre ++ op)

def applyUnary (op : String) (v : Value) : Res Value :=
  if op = opMinusS then .ok (jsNeg v)
  else .err (msgUnknownUnaryPre ++ op)

/-- BasicInterpreter.evaluate: literals, auto-vivifying variable lookup,
binary and unary application; left operand before right. -/
def evaluate : Expr → St → St × Res Value
  | .numLit q, st => (st, .ok (.num q))
  | .strLit s, st => (st, .ok (.str s))
  | .varE n, st =>
    match lookupVar st.vars n with
    | some v => (st, .ok v)
    | none =>
      ({st with vars := st.vars ++ [(n, vivify n)]}, .ok (vivify n))
  | .binary op l r, st =>
    bindR (evaluate l st) fun lv st1 =>
    bindR (evaluate r st1) fun rv st2 =>
    (st2, applyBinary op lv rv)
  | .unary op e, st =>
    bindR (evaluate e st) fun v st1 =>
    (st1, applyUnary op v)

/-- The expression/separator loop of executePrint, accumulating the output
text: a semicolon separator adds nothing, a comma a five-space gap. -/
def printExprs : List Expr → List String → String → St → St × Res String
  | [], _, acc, st => (st, .ok acc)
  | e :: es, seps, acc, st =>
    bindR (evaluate e st) fun v st1 =>
      let acc1 := acc ++ valueToString v
      match seps with
      | [] => printExprs es [] acc1 st1
      | s :: rest =>
        let acc2 :=
          if s = semiS then acc1
          else if s = commaS then acc1 ++ fiveSpacesS
          else acc1
        printExprs es rest acc2 st1

/-- BasicInterpreter.executePrint: newline-terminated unless the final
separator is a semicolon. -/
def executePrint (es : List Expr) (ss : List String) (st : St) :
    St × Res Unit :=
  bindR (printExprs es ss emptyS st) fun out st1 =>
    if ss = [] ∨ ss.getLast? ≠ some semiS then (stPrintln out st1, .ok ())
    else (stPrint out st1, .ok ())

def executeLet (v : String) (e : Expr) (st : St) : St × Res Unit :=
  bindR (evaluate e st) fun val st1 =>
  ({st1 with vars := setVar st1.vars v val}, .ok ())

/-- JS parseFloat: longest numeric prefix after leading whitespace; none
models NaN. -/
def jsParseFloat (s : String) : Option ℚ :=
  let core : List Char → Option ℚ := fun l2 =>
    let ds := l2.takeWhile Char.isDigit
    let rest := l2.dropWhile Char.isDigit
    match rest with
    | c :: r2 =>
      if c = '.' then
        let fs := r2.takeWhile Char.isDigit
        if ds = [] ∧ fs = [] then none
        else some (Rat.divInt (digitsValN (ds ++ fs)) ((10 : ℕ) ^ fs.length))
      else if ds = [] then none else some ((digitsValN ds : ℕ) : ℚ)
    | [] => if ds = [] then none else some ((digitsValN ds : ℕ) : ℚ)
  match s.data.dropWhile Char.isWhitespace with
  | '+' :: r => core r
  | '-' :: r => (core r).map Neg.neg
  | r => core r

/-- BasicInterpreter.executeInput: consume the next queued input line (the
prompt itself is rendered by the screen, not by the interpreter output
callbacks); an empty queue models an await that never resolves. -/
def executeInput (_prompt v : String) (st : St) : St × Res Unit :=
  match st.inputs with
  | [] => (st, .stuck)
  | i :: rest =>
    let st1 := {st with inputs := rest}
    if endsDollar v then
      ({st1 with vars := setVar st1.vars v (.str i)}, .ok ())
    else
      match jsParseFloat i with
      | none => (st1, .err msgTypeMismatch)
      | some q => ({st1 with vars := setVar st1.vars v (.num q)}, .ok ())

/-- BasicInterpreter.executeGoto: existence check, then record the pending
jump target. -/
def executeGoto (n : ℚ) (st : St) : St × Res Unit :=
  if mapHas st.program n then ({st with nextLine := some n}, .ok ())
  else (st, .err msgUndef)

/-- BasicInterpreter.executeFor: evaluate start, end, step in that order,
bind the loop variable to start, push a frame remembering the currently
executing line as jump-back target. -/
def executeFor (v : String) (startE endE stepE : Expr) (st : St) :
    St × Res Unit :=
  bindR (evaluate startE st) fun sv st1 =>
  bindR (evaluate endE st1) fun ev st2 =>
  bindR (evaluate stepE st2) fun pv st3 =>
  let st4 := {st3 with vars := setVar st3.vars v sv}
  ({st4 with forStack := st4.forStack ++ [⟨v, ev, pv, st4.currentLine⟩]},
    .ok ())

/-- JS truthiness-guarded variable mismatch test of executeNext: an
explicit non-empty NEXT variable differing from the top frame. -/
def nextNameMismatch (nv : Option String) (topVar : String) : Bool :=
  match nv with
  | some v => (v ≠ emptyS) && (v ≠ topVar)
  | none => false

/-- JS undefined + step, reachable only when the loop variable is unbound. -/
def jsAddUndef (stepV : Value) : Value :=
  match stepV with
  | .str s => .str (undefinedS ++ s)
  | _ => .nan

/-- BasicInterpreter.executeNext: error on empty stack or mismatched name;
otherwise advance the variable by the step and either jump back to the
frame line (still in range, inclusive, direction per step sign) or pop. -/
def executeNext (nv : Option String) (st : St) : St × Res Unit :=
  match st.forStack.getLast? with
  | none => (st, .err msgNextWithoutFor)
  | some loop =>
    if nextNameMismatch nv loop.varName then (st, .err msgNextWithoutFor)
    else
      let newValue :=
        match lookupVar st.vars loop.varName with
        | some cv => jsAdd cv loop.stepValue
        | none => jsAddUndef loop.stepValue
      if (jsGt loop.stepValue (Value.num 0) && jsLe newValue loop.endValue)
          || (jsLt loop.stepValue (Value.num 0) && jsGe newValue loop.endValue) then
        ({st with
            vars := setVar st.vars loop.varName newValue
            nextLine := some loop.bodyStart}, .ok ())
      else ({st with forStack := st.forStack.dropLast}, .ok ())

/-- The display reconstruction of LIST: strip the leading line-number text
(digits then whitespace) from the stored source. -/
def stripLineNum (s : String) : String :=
  match s.data with
  | c :: _ =>
    if c.isDigit then
      String.mk ((s.data.dropWhile Char.isDigit).dropWhile Char.isWhitespace)
    else s
  | [] => s

def insertAsc (x : ℚ) : List ℚ → List ℚ
  | [] => [x]
  | y :: rest => if x ≤ y then x :: y :: rest else y :: insertAsc x rest

/-- Ascending numeric sort of the stored line numbers. -/
def sortAsc (l : List ℚ) : List ℚ := l.foldr insertAsc []

def listLines (keys : List ℚ) (a b : ℚ) (st : St) : St :=
  match keys with
  | [] => st
  | k :: rest =>
    let st1 :=
      if a ≤ k ∧ k ≤ b then
        match mapGet st.program k with
        | some pl => stPrintln (numToString k ++ spaceS ++ stripLineNum pl.source) st
        | none => st
      else st
    listLines rest a b st1

/-- BasicInterpreter.executeList: the stored lines in ascending order within
the optional inclusive range (the missing-entry branch of listLines is
unreachable: the keys are drawn from the same unmodified store). -/
def executeList (a b : Option ℚ) (st : St) : St × Res Unit :=
  let lines := sortAsc (st.program.map Prod.fst)
  if lines.length = 0 then (stPrintln emptyS st, .ok ())
  else
    let s := match a with | some x => x | none => lines.headD 0
    let e := match b with | some x => x | none => (lines.getLast?).getD 0
    (listLines lines s e st, .ok ())

/-- BasicInterpreter.executeNew: clear store, variables, loop stack. -/
def executeNew (st : St) : St × Res Unit :=
  (stPrintln emptyS {st with program := [], vars := [], forStack := []},
    .ok ())

def idxOfQ (l : List ℚ) (x : ℚ) : Option Nat := l.findIdx? (fun y => y = x)

mutual

/-- BasicInterpreter.executeNode dispatch (HOME only invokes the clear
callback, which owns no interpreter state; REM is a no-op). Fuel is spent
at every level of the mutual recursion so that the definitions are
structurally recursive; exhaustion models only non-completion, never an
error the JS code could observe. -/
def executeNode : Nat → Stmt → St → St × Res Unit
  | 0, _, st => (st, .stuck)
  | fuel + 1, s, st =>
    match s with
    | .printS es ss => executePrint es ss st
    | .letS v e => executeLet v e st
    | .inputS p v => executeInput p v st
    | .ifS c t =>
      bindR (evaluate c st) fun cv st1 =>
      if jsTruthy cv then executeNode fuel t st1 else (st1, .ok ())
    | .gotoS n => executeGoto n st
    | .forS v a b c => executeFor v a b c st
    | .nextS nv => executeNext nv st
    | .endS => ({st with running := false}, .ok ())
    | .runS => run fuel st
    | .listS a b => executeList a b st
    | .newS => executeNew st
    | .homeS => (st, .ok ())
    | .rem => (st, .ok ())
termination_by structural fuel _ _ => fuel

/-- BasicInterpreter.run: no-program fast path, reset of variables and loop
stack (but not of the pending jump target), sorted line iteration, error
caught and printed, running flag cleared afterwards. -/
def run : Nat → St → St × Res Unit
  | 0, st => (st, .stuck)
  | fuel + 1, st =>
    if st.program.length = 0 then (stPrint msgNoProgram st, .ok ())
    else
      let st1 := {st with running := true, vars := [], forStack := []}
      let lines := sortAsc (st1.program.map Prod.fst)
      match runLoop fuel lines 0 st1 with
      | (st2, .ok _) => ({st2 with running := false}, .ok ())
      | (st2, .err m) => ({stPrint (m ++ nlS) st2 with running := false}, .ok ())
      | (st2, .stuck) => (st2, .stuck)
termination_by structural fuel _ => fuel

/-- The cursor-indexed line loop of run: stop past the end or once the
running flag is cleared; execute the current line; honor and clear a
pending jump target (undefined-statement error when absent from the line
list); otherwise advance to the next line. -/
def runLoop : Nat → List ℚ → Nat → St → St × Res Unit
  | 0, _, _, st => (st, .stuck)
  | fuel + 1, lines, i, st =>
    if i < lines.length then
      if st.running then
        let st1 := {st with currentLine := lines.getD i 0}
        match mapGet st1.program st1.currentLine with
        | none => (st1, .err msgUndefinedAst)
        | some pl =>
          match executeNode fuel pl.ast st1 with
          | (st2, .ok _) =>
            match st2.nextLine with
            | some target =>
              match idxOfQ lines target with
              | none => (st2, .err (msgUndef ++ inLineS ++ numToString st2.currentLine))
              | some j => runLoop fuel lines j {st2 with nextLine := none}
            | none => runLoop fuel lines (i + 1) st2
          | (st2, .err m) => (st2, .err m)
          | (st2, .stuck) => (st2, .stuck)
      else (st, .ok ())
    else (st, .ok ())
termination_by structural fuel _ _ _ => fuel

end

/-- Character-list membership test: left starts with right. -/
def startsWithChars : List Char → List Char → Bool
  | [], _ => true
  | _ :: _, [] => false
  | c :: cr, d :: dr => c = d && startsWithChars cr dr

def hasSubChars : List Char → List Char → Bool
  | pat, [] => pat.isEmpty
  | pat, d :: dr => startsWithChars pat (d :: dr) || hasSubChars pat dr

/-- JS String.prototype.includes. -/
def strIncludes (s pat : String) : Bool := hasSubChars pat.data s.data

/-- BasicInterpreter.storeLine: a REM line whose raw source lacks the
uppercase text REM is deleted instead of stored; every other line is
stored. The EMPTY disjunct of the source condition is unrepresentable
here because parseStatement never produces an EMPTY statement. -/
def storeLine (n : ℚ) (source : String) (ast : Stmt) (st : St) : St :=
  if ast = Stmt.rem && !(strIncludes source remS) then
    {st with program := mapDelete st.program n}
  else {st with program := mapSet st.program n ⟨source, ast⟩}

/-- The try block of BasicInterpreter.executeImmediate: tokenize, parse,
then store a program line, ignore an empty line, or execute the statement. -/
def executeImmediateCore (fuel : Nat) (line : String) (st : St) :
    St × Res Unit :=
  match parseOf line with
  | .err m => (st, .err m)
  | .stuck => (st, .stuck)
  | .ok ast =>
    match ast with
    | .programLine n s => (storeLine n line s st, .ok ())
    | .empty => (st, .ok ())
    | .stmt s => executeNode fuel s st

/-- BasicInterpreter.executeImmediate: blank lines are ignored; any error
from the try block is caught and printed as a syntax-error banner plus
the error message. -/
def executeImmediate (fuel : Nat) (line : String) (st : St) : St × Res Unit :=
  if jsTrim line = emptyS then (st, .ok ())
  else
    match executeImmediateCore fuel line st with
    | (st1, .ok _) => (st1, .ok ())
    | (st1, .err m) => (stPrint (msgSynPre ++ m ++ nlS) st1, .ok ())
    | (st1, .stuck) => (st1, .stuck)

/-! ## Screen buffer (BasicScreen) -/

def screenCOLS : Nat := 40

def screenROWS : Nat := 24

structure ScreenSt where
  buffer : List (List Char)
  cursorX : Nat
  cursorY : Nat
deriving DecidableEq

def blankRow : List Char := List.replicate screenCOLS ' '

/-- BasicScreen.initBuffer: ROWS blank rows, cursor at the origin. -/
def initScreen : ScreenSt := ⟨List.replicate screenROWS blankRow, 0, 0⟩

/-- BasicScreen.scroll: drop the top row, append a blank row, park the
cursor on the last row. -/
def screenScroll (sc : ScreenSt) : ScreenSt :=
  {sc with buffer := sc.buffer.tail ++ [blankRow], cursorY := screenROWS - 1}

/-- BasicScreen.newline: carriage return, advance the row, scroll when the
cursor would pass the last row. -/
def screenNewline (sc : ScreenSt) : ScreenSt :=
  let sc1 := {sc with cursorX := 0, cursorY := sc.cursorY + 1}
  if sc1.cursorY ≥ screenROWS then screenScroll sc1 else sc1

def bufferSet (buf : List (List Char)) (y x : Nat) (c : Char) :
    List (List Char) :=
  buf.set y ((buf.getD y []).set x c)

/-- BasicScreen.putChar: wrap at column COLS, defensively scroll, write at
the cursor, advance the column. -/
def screenPutChar (c : Char) (sc : ScreenSt) : ScreenSt :=
  let sc1 := if sc.cursorX ≥ screenCOLS then screenNewline sc else sc
  let sc2 := if sc1.cursorY ≥ screenROWS then screenScroll sc1 else sc1
  {sc2 with
    buffer := bufferSet sc2.buffer sc2.cursorY sc2.cursorX c
    cursorX := sc2.cursorX + 1}

/-- BasicScreen.print: per-character loop, a newline character advancing the
row and anything else written at the cursor. -/
def screenPrint (t : String) (sc : ScreenSt) : ScreenSt :=
  t.data.foldl (fun s c => if c = '\n' then screenNewline s else screenPutChar c s) sc

/-- BasicScreen.println. -/
def screenPrintln (t : String) (sc : ScreenSt) : ScreenSt :=
  screenPrint (t ++ nlS) sc

/-- BasicScreen.clear: reinstate the initial buffer. -/
def screenClear (_sc : ScreenSt) : ScreenSt := initScreen

inductive ScreenOp where
  | doPrint (t : String)
  | doPrintln (t : String)
  | doClear
deriving DecidableEq

def applyScreenOp (sc : ScreenSt) : ScreenOp → ScreenSt
  | .doPrint t => screenPrint t sc
  | .doPrintln t => screenPrintln t sc
  | .doClear => screenClear sc

def applyScreenOps (ops : List ScreenOp) (sc : ScreenSt) : ScreenSt :=
  ops.foldl applyScreenOp sc

/-- The screen-shape invariant of the claim: ROWS rows of COLS characters,
cursor row within the grid. -/
def ScreenInv (sc : ScreenSt) : Prop :=
  sc.buffer.length = screenROWS ∧
    (∀ row ∈ sc.buffer, row.length = screenCOLS) ∧
    sc.cursorY < screenROWS

/-! ## Concrete inputs and states used by the claim analyses -/

def iName : String := "I"

def xName : String := "X"

def c1ForStmt : Stmt := Stmt.forS iName (Expr.numLit 1) (Expr.numLit 3) (Expr.numLit 1)

def c1PrintStmt : Stmt := Stmt.printS [Expr.varE iName] []

def c1NextStmt : Stmt := Stmt.nextS (some iName)

def c1Frame : ForFrame := ⟨iName, Value.num 3, Value.num 1, 10⟩

def c1L10 : String := "10 FOR I=1 TO 3"

def c1L20 : String := "20 PRINT I"

def c1L30 : String := "30 NEXT I"

def c1Program : List (ℚ × StoredLine) :=
  [(10, ⟨c1L10, c1ForStmt⟩), (20, ⟨c1L20, c1PrintStmt⟩), (30, ⟨c1L30, c1NextStmt⟩)]

def c1Keys : List ℚ := [10, 20, 30]

def lineRUN : String := "RUN"

/-- Feeding a list of lines to the REPL in order, keeping the final state. -/
def replFeed (fuel : Nat) (lines : List String) (st : St) : St :=
  lines.foldl (fun s l => (executeImmediate fuel l s).1) st

def c1BaseSt : St := replFeed 50 [c1L10, c1L20, c1L30] initialSt

/-- The output RUN has produced on the FOR program once 31 units of fuel ran
out: the first line of the loop body over and over, never a 2 or a 3. -/
def c1OutNine : String := "1\n1\n1\n1\n1\n1\n1\n1\n1\n"

def c2L10 : String := "10 PRINT 1"

def lineBare10 : String := "10"

def c2BaseSt : St := replFeed 50 [c2L10] initialSt

/-- What the REPL prints on a bare line number. -/
def msgBareLineOut : String := "?SYNTAX ERROR\nUnexpected token: EOL\n"

def c3L20 : String := "20 PRINT 2"

def c3L30 : String := "30 PRINT 3"

def lineGOTO30 : String := "GOTO 30"

def c3BaseSt : St := replFeed 50 [c2L10, c3L20, c3L30] initialSt

def c3OutStale : String := "1\n3\n"

def c3OutPlain : String := "1\n2\n3\n"

def c4Line : String := "PRINT X;5/0"

/-- The state the failing PRINT leaves behind: X auto-vivified to 0. -/
def c4FailedSt : St := {initialSt with vars := [(xName, Value.num 0)]}

def c10LowerLine : String := "10 rem hello"

def c10UpperLine : String := "10 REM hi"

def hiS : String := "HI"

/-- A screen with the cursor already on the last row. -/
def c9Sc : ScreenSt := ⟨List.replicate screenROWS blankRow, 0, screenROWS - 1⟩

/-- The variable environment grew only by auto-vivified default bindings. -/
def VivExtends (old new : List (String × Value)) : Prop :=
  ∃ ex, new = old ++ ex ∧ ∀ p ∈ ex, p.2 = vivify p.1

/-! ## Theorems -/

theorem dropWhile_len_le {α : Type} (p : α → Bool) :
    ∀ l : List α, (l.dropWhile p).length ≤ l.length := by
  intro l
  induction l with
  | nil => simp [List.dropWhile]
  | cons a t ih =>
    by_cases h : p a
    · simp [List.dropWhile, h]
      omega
    · simp [List.dropWhile, h]

theorem readNumber_rest_le (c : Char) (cs : List Char) :
    (readNumber c cs).2.length ≤ cs.length := by
  have h1 : (cs.dropWhile Char.isDigit).length ≤ cs.length :=
    dropWhile_len_le Char.isDigit cs
  unfold readNumber
  rcases hd : cs.dropWhile Char.isDigit with _ | ⟨a, r2⟩
  · simp
  · rw [hd] at h1
    simp only [List.length_cons] at h1
    have h2 : (r2.dropWhile Char.isDigit).length ≤ r2.length :=
      dropWhile_len_le Char.isDigit r2
    by_cases ha : a = '.'
    · simp [ha]
      omega
    · simp [ha]
      omega

theorem readStringLit_rest_le (cs : List Char) :
    (readStringLit cs).2.length ≤ cs.length := by
  have h1 : (cs.dropWhile notQuote).length ≤ cs.length :=
    dropWhile_len_le notQuote cs
  unfold readStringLit
  rcases hd : cs.dropWhile notQuote with _ | ⟨a, r⟩
  · simp
  · rw [hd] at h1
    simp only [List.length_cons] at h1
    simp
    omega

theorem readOperator_rest_le (c : Char) (cs : List Char) (pr : String × List Char)
    (h : readOperator c cs = some pr) : pr.2.length ≤ cs.length := by
  rcases cs with _ | ⟨c2, r2⟩
  · unfold readOperator at h
    by_cases h1 : operatorList.contains (String.mk [c]) = true
    · rw [if_pos h1] at h
      cases h
      simp
    · rw [if_neg h1] at h
      cases h
  · simp only [readOperator] at h
    by_cases h1 : operatorList.contains (String.mk (c :: [c2])) = true
    · rw [if_pos h1] at h
      cases h
      simp
    · rw [if_neg h1] at h
      by_cases h2 : operatorList.contains (String.mk [c]) = true
      · rw [if_pos h2] at h
        cases h
        simp
      · rw [if_neg h2] at h
        cases h


theorem qAdd_eq_add (a b : ℚ) : qAdd a b = a + b := by
  rw [qAdd, Rat.add_def]
  simp [Rat.normalize_eq_mkRat, Rat.mkRat_eq_divInt]

theorem qSub_eq_sub (a b : ℚ) : qSub a b = a - b := by
  rw [qSub, Rat.sub_def]
  simp [Rat.normalize_eq_mkRat, Rat.mkRat_eq_divInt]

theorem qMul_eq_mul (a b : ℚ) : qMul a b = a * b := by
  rw [qMul, Rat.mul_def]
  simp [Rat.normalize_eq_mkRat, Rat.mkRat_eq_divInt]

theorem qDiv_eq_div (a b : ℚ) : qDiv a b = a / b := (Rat.div_def' a b).symm

theorem emptyS_append (s : String) : emptyS ++ s = s := rfl

theorem c1_mapGet10 : mapGet c1Program 10 = some ⟨c1L10, c1ForStmt⟩ := by decide

theorem c1_mapGet20 : mapGet c1Program 20 = some ⟨c1L20, c1PrintStmt⟩ := by decide

theorem c1_mapGet30 : mapGet c1Program 30 = some ⟨c1L30, c1NextStmt⟩ := by decide

theorem c1_idx10 : idxOfQ ((10 : ℚ) :: 20 :: 30 :: []) 10 = some 0 := by decide

theorem qAdd_one_one : qAdd 1 1 = (2 : ℚ) := by decide

theorem exec_for_step (f : Nat) (st : St)
    (hsv : setVar st.vars iName (Value.num 1) = [(iName, Value.num 1)]) :
    executeNode (f + 1) c1ForStmt st =
      ({st with
          vars := [(iName, Value.num 1)]
          forStack := st.forStack ++ [⟨iName, Value.num 3, Value.num 1, st.currentLine⟩]},
        Res.ok ()) := by
  simp only [executeNode, c1ForStmt, executeFor, evaluate, bindR, hsv]

theorem exec_print_step (f : Nat) (st : St) (q : ℚ)
    (hv : st.vars = [(iName, Value.num q)]) :
    executeNode (f + 1) c1PrintStmt st =
      ({st with output := st.output ++ numToString q ++ nlS}, Res.ok ()) := by
  simp [executeNode, c1PrintStmt, executePrint, printExprs, evaluate, bindR,
    lookupVar, hv, stPrintln, valueToString, iName, emptyS_append]

theorem exec_next_step (f : Nat) (st : St) (rest : List ForFrame)
    (h1 : st.forStack = rest ++ [c1Frame])
    (h2 : st.vars = [(iName, Value.num 1)]) :
    executeNode (f + 1) c1NextStmt st =
      ({st with
          vars := [(iName, Value.num 2)]
          nextLine := some 10}, Res.ok ()) := by
  simp [executeNode, c1NextStmt, executeNext, h1, h2, nextNameMismatch, lookupVar,
    jsAdd, toNumW, jsGt, jsLe, jsLt, jsGe, iName, setVar, c1Frame, qAdd_one_one]
  norm_num

theorem c1_stepA (f : Nat) (vs : List (String × Value)) (fs : List ForFrame)
    (cl : ℚ) (out : String) (ins : List String)
    (hsv : setVar vs iName (Value.num 1) = [(iName, Value.num 1)]) :
    runLoop (f + 2) c1Keys 0 ⟨c1Program, vs, fs, cl, true, none, out, ins⟩ =
      runLoop (f + 1) c1Keys 1
        ⟨c1Program, [(iName, Value.num 1)], fs ++ [c1Frame], 10, true, none, out, ins⟩ := by
  have hfor := exec_for_step f ⟨c1Program, vs, fs, 10, true, none, out, ins⟩ hsv
  simp only [runLoop]
  simp [c1Keys, c1_mapGet10, hfor, c1Frame]

theorem c1_stepB (f : Nat) (fs : List ForFrame) (cl : ℚ) (out : String)
    (ins : List String) :
    runLoop (f + 2) c1Keys 1
        ⟨c1Program, [(iName, Value.num 1)], fs, cl, true, none, out, ins⟩ =
      runLoop (f + 1) c1Keys 2
        ⟨c1Program, [(iName, Value.num 1)], fs, 20, true, none,
          out ++ numToString 1 ++ nlS, ins⟩ := by
  have hpr := exec_print_step f
    ⟨c1Program, [(iName, Value.num 1)], fs, 20, true, none, out, ins⟩ 1 rfl
  simp only [runLoop]
  simp [c1Keys, c1_mapGet20, hpr]

theorem c1_stepC (f : Nat) (rest : List ForFrame) (cl : ℚ) (out : String)
    (ins : List String) :
    runLoop (f + 2) c1Keys 2
        ⟨c1Program, [(iName, Value.num 1)], rest ++ [c1Frame], cl, true, none, out, ins⟩ =
      runLoop (f + 1) c1Keys 0
        ⟨c1Program, [(iName, Value.num 2)], rest ++ [c1Frame], 30, true, none, out, ins⟩ := by
  have hnx := exec_next_step f
    ⟨c1Program, [(iName, Value.num 1)], rest ++ [c1Frame], 30, true, none, out, ins⟩
    rest rfl rfl
  simp only [runLoop]
  simp [c1Keys, c1_mapGet30, hnx, c1_idx10]

theorem executeNode_zero (s : Stmt) (st : St) : executeNode 0 s st = (st, Res.stuck) := rfl

theorem c1_loop_stuck (f : Nat) :
    ∀ (vs : List (String × Value)) (fs : List ForFrame) (cl : ℚ) (out : String)
      (ins : List String),
      setVar vs iName (Value.num 1) = [(iName, Value.num 1)] →
      (runLoop f c1Keys 0 ⟨c1Program, vs, fs, cl, true, none, out, ins⟩).2 =
        Res.stuck := by
  induction f using Nat.strong_induction_on with
  | _ f IH =>
    intro vs fs cl out ins hsv
    rcases f with _ | f
    · simp [runLoop]
    rcases f with _ | f
    · simp [runLoop, c1Keys, c1_mapGet10, executeNode_zero]
    rcases f with _ | f
    · rw [c1_stepA 0 vs fs cl out ins hsv]
      simp [runLoop, c1Keys, c1_mapGet20, executeNode_zero]
    rcases f with _ | f
    · rw [c1_stepA (0 + 1) vs fs cl out ins hsv]
      rw [c1_stepB 0 (fs ++ [c1Frame]) 10 out ins]
      simp [runLoop, c1Keys, c1_mapGet30, executeNode_zero]
    · rw [c1_stepA (f + 1 + 1) vs fs cl out ins hsv]
      rw [c1_stepB (f + 1) (fs ++ [c1Frame]) 10 out ins]
      rw [c1_stepC f fs 20 (out ++ numToString 1 ++ nlS) ins]
      exact IH (f + 1) (by omega) [(iName, Value.num 2)] (fs ++ [c1Frame]) 30
        (out ++ numToString 1 ++ nlS) ins (by simp [setVar])

theorem screenInv_init : ScreenInv initScreen := by
  constructor
  · simp [initScreen, screenROWS]
  constructor
  · intro row hrow
    simp [initScreen, blankRow] at hrow
    simp [hrow, blankRow, screenCOLS]
  · simp [initScreen, screenROWS]

/-- Shape part only: scroll keeps the grid shape and parks the cursor. -/
theorem screenInv_scroll (sc : ScreenSt) (h1 : sc.buffer.length = screenROWS)
    (h2 : ∀ row ∈ sc.buffer, row.length = screenCOLS) :
    ScreenInv (screenScroll sc) := by
  refine ⟨?_, ?_, ?_⟩
  · simp [screenScroll, List.length_tail, h1, screenROWS]
  · intro row hrow
    simp [screenScroll] at hrow
    rcases hrow with hrow | hrow
    · exact h2 row (List.mem_of_mem_tail hrow)
    · simp [hrow, blankRow, screenCOLS]
  · simp [screenScroll, screenROWS]

theorem screenInv_newline (sc : ScreenSt) (h : ScreenInv sc) :
    ScreenInv (screenNewline sc) := by
  obtain ⟨h1, h2, h3⟩ := h
  unfold screenNewline
  dsimp only
  split
  · exact screenInv_scroll _ h1 h2
  · next hy => exact ⟨h1, h2, by simp at hy ⊢; omega⟩

theorem screenInv_putChar (c : Char) (sc : ScreenSt) (h : ScreenInv sc) :
    ScreenInv (screenPutChar c sc) := by
  unfold screenPutChar
  set sc1 := if sc.cursorX ≥ screenCOLS then screenNewline sc else sc with hsc1
  have hInv1 : ScreenInv sc1 := by
    rw [hsc1]
    split
    · exact screenInv_newline sc h
    · exact h
  set sc2 := if sc1.cursorY ≥ screenROWS then screenScroll sc1 else sc1 with hsc2
  have hInv2 : ScreenInv sc2 := by
    rw [hsc2]
    split
    · exact screenInv_scroll sc1 hInv1.1 hInv1.2.1
    · exact hInv1
  obtain ⟨g1, g2, g3⟩ := hInv2
  refine ⟨?_, ?_, ?_⟩
  · simpa [bufferSet] using g1
  · intro row hrow
    simp only [bufferSet] at hrow
    rcases List.mem_or_eq_of_mem_set hrow with hrow | hrow
    · exact g2 row hrow
    · have hb : sc2.cursorY < sc2.buffer.length := by omega
      rw [hrow, List.length_set]
      rw [List.getD_eq_getElem _ _ hb]
      apply g2
      exact List.getElem_mem hb
  · simpa [bufferSet] using g3

theorem screenInv_print (t : String) (sc : ScreenSt) (h : ScreenInv sc) :
    ScreenInv (screenPrint t sc) := by
  unfold screenPrint
  induction t.data generalizing sc with
  | nil => simpa using h
  | cons c cs ih =>
    simp only [List.foldl_cons]
    apply ih
    split
    · exact screenInv_newline sc h
    · exact screenInv_putChar c sc h

theorem screenInv_op (op : ScreenOp) (sc : ScreenSt) (h : ScreenInv sc) :
    ScreenInv (applyScreenOp sc op) := by
  cases op with
  | doPrint t => exact screenInv_print t sc h
  | doPrintln t => exact screenInv_print (t ++ nlS) sc h
  | doClear => exact screenInv_init

theorem screenInv_ops (ops : List ScreenOp) (sc : ScreenSt) (h : ScreenInv sc) :
    ScreenInv (applyScreenOps ops sc) := by
  unfold applyScreenOps
  induction ops generalizing sc with
  | nil => simpa using h
  | cons op rest ih =>
    simp only [List.foldl_cons]
    exact ih _ (screenInv_op op sc h)

theorem scrollNewlineShape (sc : ScreenSt) (hy : sc.cursorY = screenROWS - 1) :
    screenNewline sc = ⟨sc.buffer.tail ++ [blankRow], 0, screenROWS - 1⟩ := by
  unfold screenNewline
  dsimp only
  rw [if_pos (by simp [hy, screenROWS])]
  simp [screenScroll]

theorem vivExt_refl (v : List (String × Value)) : VivExtends v v :=
  ⟨[], by simp, by simp⟩

theorem vivExt_trans {a b c : List (String × Value)}
    (h1 : VivExtends a b) (h2 : VivExtends b c) : VivExtends a c := by
  obtain ⟨e1, he1, g1⟩ := h1
  obtain ⟨e2, he2, g2⟩ := h2
  refine ⟨e1 ++ e2, ?_, ?_⟩
  · rw [he2, he1, List.append_assoc]
  · intro p hp
    rcases List.mem_append.mp hp with hp | hp
    · exact g1 p hp
    · exact g2 p hp

theorem evaluate_pres (e : Expr) : ∀ st : St,
    (evaluate e st).1.program = st.program ∧
      VivExtends st.vars (evaluate e st).1.vars ∧
      (evaluate e st).1.forStack = st.forStack ∧
      (evaluate e st).1.output = st.output := by
  induction e with
  | numLit q =>
    intro st
    exact ⟨rfl, vivExt_refl _, rfl, rfl⟩
  | strLit s =>
    intro st
    exact ⟨rfl, vivExt_refl _, rfl, rfl⟩
  | varE n =>
    intro st
    simp only [evaluate]
    rcases h : lookupVar st.vars n with _ | v
    · exact ⟨rfl, ⟨[(n, vivify n)], rfl, by simp⟩, rfl, rfl⟩
    · exact ⟨rfl, vivExt_refl _, rfl, rfl⟩
  | binary op l r ihl ihr =>
    intro st
    simp only [evaluate]
    rcases h1 : evaluate l st with ⟨st1, r1⟩
    have hl := ihl st
    rw [h1] at hl
    rcases r1 with v1 | m1 | _
    · rcases h2 : evaluate r st1 with ⟨st2, r2⟩
      have hr := ihr st1
      rw [h2] at hr
      rcases r2 with v2 | m2 | _ <;>
        simp [bindR, h1, h2] <;>
        exact ⟨hr.1.trans hl.1, vivExt_trans hl.2.1 hr.2.1, hr.2.2.1.trans hl.2.2.1,
          hr.2.2.2.trans hl.2.2.2⟩
    · simpa [bindR, h1] using hl
    · simpa [bindR, h1] using hl
  | unary op e ih =>
    intro st
    simp only [evaluate]
    rcases h1 : evaluate e st with ⟨st1, r1⟩
    have he := ih st
    rw [h1] at he
    rcases r1 with v1 | m1 | _ <;> simpa [bindR, h1] using he

theorem printExprs_pres (es : List Expr) : ∀ (ss : List String) (acc : String)
    (st : St),
    (printExprs es ss acc st).1.program = st.program ∧
      VivExtends st.vars (printExprs es ss acc st).1.vars ∧
      (printExprs es ss acc st).1.output = st.output := by
  induction es with
  | nil =>
    intro ss acc st
    exact ⟨rfl, vivExt_refl _, rfl⟩
  | cons e es ih =>
    intro ss acc st
    simp only [printExprs]
    rcases h1 : evaluate e st with ⟨st1, r1⟩
    have he := evaluate_pres e st
    rw [h1] at he
    rcases r1 with v1 | m1 | _
    · rcases ss with _ | ⟨s, rest⟩ <;>
      · simp only [bindR]
        refine ⟨?_, ?_, ?_⟩
        · exact (ih _ _ st1).1.trans he.1
        · exact vivExt_trans he.2.1 (ih _ _ st1).2.1
        · exact (ih _ _ st1).2.2.trans he.2.2.2
    · simpa [bindR] using ⟨he.1, he.2.1, he.2.2.2⟩
    · simpa [bindR] using ⟨he.1, he.2.1, he.2.2.2⟩

theorem run_no_err (fuel : Nat) (st : St) (m : String) :
    (run fuel st).2 ≠ Res.err m := by
  rcases fuel with _ | f
  · simp [run]
  · simp only [run]
    split
    · simp
    · rcases h : runLoop f (sortAsc (st.program.map Prod.fst)) 0
          {st with running := true, vars := [], forStack := []} with ⟨st2, r2⟩
      rcases r2 <;> simp

theorem executeNode_err (s : Stmt) : ∀ (fuel : Nat) (st st' : St) (m : String),
    executeNode fuel s st = (st', Res.err m) →
    st'.program = st.program ∧ VivExtends st.vars st'.vars := by
  induction s with
  | printS es ss =>
    intro fuel st st' m h
    rcases fuel with _ | f
    · simp [executeNode] at h
    simp only [executeNode, executePrint] at h
    rcases hp : printExprs es ss emptyS st with ⟨stp, rp⟩
    have hpres := printExprs_pres es ss emptyS st
    rw [hp] at hpres
    rcases rp with v | m2 | _ <;> simp only [hp, bindR] at h
    · split at h <;> simp [stPrintln, stPrint] at h
    · injection h with h1 h2
      subst h1
      exact ⟨hpres.1, hpres.2.1⟩
    · simp at h
  | letS v e =>
    intro fuel st st' m h
    rcases fuel with _ | f
    · simp [executeNode] at h
    simp only [executeNode, executeLet] at h
    rcases hp : evaluate e st with ⟨stp, rp⟩
    have hpres := evaluate_pres e st
    rw [hp] at hpres
    rcases rp with v2 | m2 | _ <;> simp only [hp, bindR] at h
    · simp at h
    · injection h with h1 h2
      subst h1
      exact ⟨hpres.1, hpres.2.1⟩
    · simp at h
  | inputS p v =>
    intro fuel st st' m h
    rcases fuel with _ | f
    · simp [executeNode] at h
    simp only [executeNode, executeInput] at h
    rcases hin : st.inputs with _ | ⟨i, rest⟩ <;> rw [hin] at h
    · simp at h
    · dsimp only at h
      split at h
      · simp at h
      · rcases hjp : jsParseFloat i with _ | q <;> rw [hjp] at h
        · injection h with h1 h2
          subst h1
          exact ⟨rfl, vivExt_refl _⟩
        · simp at h
  | ifS c t iht =>
    intro fuel st st' m h
    rcases fuel with _ | f
    · simp [executeNode] at h
    simp only [executeNode] at h
    rcases hp : evaluate c st with ⟨stp, rp⟩
    have hpres := evaluate_pres c st
    rw [hp] at hpres
    rcases rp with v2 | m2 | _ <;> simp only [hp, bindR] at h
    · split at h
      · have := iht f stp st' m h
        exact ⟨this.1.trans hpres.1, vivExt_trans hpres.2.1 this.2⟩
      · simp at h
    · injection h with h1 h2
      subst h1
      exact ⟨hpres.1, hpres.2.1⟩
    · simp at h
  | gotoS n =>
    intro fuel st st' m h
    rcases fuel with _ | f
    · simp [executeNode] at h
    simp only [executeNode, executeGoto] at h
    split at h
    · simp at h
    · injection h with h1 h2
      subst h1
      exact ⟨rfl, vivExt_refl _⟩
  | forS v a b c =>
    intro fuel st st' m h
    rcases fuel with _ | f
    · simp [executeNode] at h
    simp only [executeNode, executeFor] at h
    rcases h1 : evaluate a st with ⟨st1, r1⟩
    have p1 := evaluate_pres a st
    rw [h1] at p1
    rcases r1 with v1 | m1 | _ <;> simp only [h1, bindR] at h
    · rcases h2 : evaluate b st1 with ⟨st2, r2⟩
      have p2 := evaluate_pres b st1
      rw [h2] at p2
      rcases r2 with v2 | m2 | _ <;> simp only [h2, bindR] at h
      · rcases h3 : evaluate c st2 with ⟨st3, r3⟩
        have p3 := evaluate_pres c st2
        rw [h3] at p3
        rcases r3 with v3 | m3 | _ <;> simp only [h3, bindR] at h
        · simp at h
        · injection h with hh1 hh2
          subst hh1
          exact ⟨p3.1.trans (p2.1.trans p1.1),
            vivExt_trans p1.2.1 (vivExt_trans p2.2.1 p3.2.1)⟩
        · simp at h
      · injection h with hh1 hh2
        subst hh1
        exact ⟨p2.1.trans p1.1, vivExt_trans p1.2.1 p2.2.1⟩
      · simp at h
    · injection h with hh1 hh2
      subst hh1
      exact ⟨p1.1, p1.2.1⟩
    · simp at h
  | nextS nv =>
    intro fuel st st' m h
    rcases fuel with _ | f
    · simp [executeNode] at h
    simp only [executeNode, executeNext] at h
    rcases hgl : st.forStack.getLast? with _ | fr <;> rw [hgl] at h
    · dsimp only at h
      injection h with h1 h2
      subst h1
      exact ⟨rfl, vivExt_refl _⟩
    · dsimp only at h
      split at h
      · injection h with h1 h2
        subst h1
        exact ⟨rfl, vivExt_refl _⟩
      · split at h <;> simp at h
  | rem =>
    intro fuel st st' m h
    rcases fuel with _ | f <;> simp [executeNode] at h
  | endS =>
    intro fuel st st' m h
    rcases fuel with _ | f <;> simp [executeNode] at h
  | listS a b =>
    intro fuel st st' m h
    rcases fuel with _ | f
    · simp [executeNode] at h
    simp only [executeNode, executeList] at h
    split at h <;> simp at h
  | runS =>
    intro fuel st st' m h
    rcases fuel with _ | f
    · simp [executeNode] at h
    simp only [executeNode] at h
    have := run_no_err f st m
    rw [h] at this
    simp at this
  | newS =>
    intro fuel st st' m h
    rcases fuel with _ | f <;> simp [executeNode, executeNew] at h
  | homeS =>
    intro fuel st st' m h
    rcases fuel with _ | f <;> simp [executeNode] at h

theorem core_of_blank (fuel : Nat) (line : String) (st : St)
    (hb : jsTrim line = emptyS) :
    executeImmediateCore fuel line st = (st, Res.ok ()) := by
  simp only [executeImmediateCore, parseOf, tokenize, hb]
  simp [bindP, parseTokens, isAtEndT, curT, eolTok, emptyS, tokenizeLoop]

theorem c4_amended_try (fuel : Nat) (line : String) (st st' : St) (m : String)
    (h : executeImmediateCore fuel line st = (st', Res.err m)) :
    st'.program = st.program ∧ VivExtends st.vars st'.vars ∧
    executeImmediate fuel line st =
      (stPrint (msgSynPre ++ m ++ nlS) st', Res.ok ()) := by
  have hcore := h
  simp only [executeImmediateCore] at h
  have hmain : st'.program = st.program ∧ VivExtends st.vars st'.vars := by
    rcases hp : parseOf line with ast | m2 | _ <;> rw [hp] at h
    · rcases ast with ⟨n, s⟩ | _ | s
      · simp at h
      · simp at h
      · exact executeNode_err s fuel st st' m h
    · injection h with h1 h2
      subst h1
      exact ⟨rfl, vivExt_refl _⟩
    · simp at h
  refine ⟨hmain.1, hmain.2, ?_⟩
  have hb : ¬ (jsTrim line = emptyS) := by
    intro hb
    rw [core_of_blank fuel line st hb] at hcore
    simp at hcore
  simp only [executeImmediate, hb, if_false, hcore]

theorem c1_base_eq : c1BaseSt = ⟨c1Program, [], [], 0, false, none, emptyS, []⟩ := by
  decide

theorem parseOf_RUN : parseOf lineRUN = Res.ok (Ast.stmt Stmt.runS) := by decide

theorem c1_sort : sortAsc (c1Program.map Prod.fst) = c1Keys := by decide

theorem trim_RUN : (jsTrim lineRUN = emptyS) = False := by
  simp [jsTrim, lineRUN, emptyS]

theorem c1_nonterm (fuel : Nat) :
    (executeImmediate fuel lineRUN c1BaseSt).2 = Res.stuck := by
  rw [c1_base_eq]
  simp only [executeImmediate, trim_RUN, if_false]
  simp only [executeImmediateCore, parseOf_RUN]
  rcases fuel with _ | g
  · simp [executeNode]
  rcases g with _ | h
  · simp [executeNode, run]
  simp only [executeNode, run]
  rcases h2 : runLoop h (sortAsc (c1Program.map Prod.fst)) 0
      ⟨c1Program, [], [], 0, true, none, emptyS, []⟩ with ⟨st2, r2⟩
  have hs := c1_loop_stuck h [] [] 0 emptyS [] (by simp [setVar])
  rw [c1_sort] at h2
  rw [h2] at hs
  simp only at hs
  subst hs
  simp [c1Program]

theorem c5_try (fuel : Nat) (st : St) (h : st.program = []) :
    run (fuel + 1) st = (stPrint msgNoProgram st, Res.ok ()) ∧
    executeImmediate (fuel + 2) lineRUN st = (stPrint msgNoProgram st, Res.ok ()) ∧
    (stPrint msgNoProgram st).program = st.program ∧
    (stPrint msgNoProgram st).vars = st.vars ∧
    (stPrint msgNoProgram st).forStack = st.forStack ∧
    (stPrint msgNoProgram st).output = st.output ++ msgNoProgram := by
  have hrun : run (fuel + 1) st = (stPrint msgNoProgram st, Res.ok ()) := by
    simp [run, h]
  refine ⟨hrun, ?_, rfl, rfl, rfl, rfl⟩
  simp only [executeImmediate, trim_RUN, if_false, executeImmediateCore, parseOf_RUN]
  simp only [executeNode, hrun]

theorem c6_try (st st1 st2 : St) (l r : Expr) (a b : ℚ)
    (hl : evaluate l st = (st1, Res.ok (Value.num a)))
    (hr : evaluate r st1 = (st2, Res.ok (Value.num b))) :
    evaluate (Expr.binary opSlashS l r) st =
      (st2, if b = 0 then Res.err msgDivZero else Res.ok (Value.num (qDiv a b))) := by
  simp only [evaluate, hl, bindR, hr]
  by_cases hb : b = 0
  · subst hb
    simp [applyBinary, opSlashS, opPlusS, opMinusS, opStarS]
  · simp [applyBinary, opSlashS, opPlusS, opMinusS, opStarS, hb, jsDiv, toNumW]

theorem c8_try (st : St) (n : String) (h : lookupVar st.vars n = none) :
    evaluate (Expr.varE n) st =
      ({st with vars := st.vars ++ [(n, vivify n)]}, Res.ok (vivify n)) ∧
    (endsDollar n = false → vivify n = Value.num 0) ∧
    (endsDollar n = true → vivify n = Value.str emptyS) := by
  refine ⟨?_, ?_, ?_⟩
  · simp [evaluate, h]
  · intro hd
    simp [vivify, hd]
  · intro hd
    simp [vivify, hd]

theorem executeNext_advance_ok (nv : Option String) (st : St) (fr : ForFrame)
    (hgl : st.forStack.getLast? = some fr)
    (hmm : nextNameMismatch nv fr.varName = false) :
    (executeNext nv st).2 = Res.ok () := by
  simp only [executeNext, hgl]
  rw [if_neg (by simp [hmm])]
  split <;> rfl

theorem c7_try (nv : Option String) (st : St) (hne : nv ≠ some emptyS) :
    ((executeNext nv st).2 = Res.err msgNextWithoutFor ↔
      st.forStack = [] ∨
        ∃ fr v, st.forStack.getLast? = some fr ∧ nv = some v ∧ v ≠ fr.varName) ∧
    (∀ fuel, executeNode (fuel + 1) (Stmt.nextS nv) st = executeNext nv st) := by
  constructor
  · rcases hgl : st.forStack.getLast? with _ | fr
    · have hnil : st.forStack = [] := List.getLast?_eq_none_iff.mp hgl
      simp [executeNext, hgl, hnil]
    · have hnenil : st.forStack ≠ [] := by
        intro hc
        rw [hc] at hgl
        simp at hgl
      by_cases hmm : nextNameMismatch nv fr.varName = true
      · have herr : (executeNext nv st).2 = Res.err msgNextWithoutFor := by
          simp [executeNext, hgl, hmm]
        rw [herr]
        simp only [true_iff]
        rcases nv with _ | v
        · simp [nextNameMismatch] at hmm
        · refine Or.inr ⟨fr, v, rfl, rfl, ?_⟩
          simp [nextNameMismatch] at hmm
          exact hmm.2
      · have hok := executeNext_advance_ok nv st fr hgl (by simpa using hmm)
        rw [hok]
        refine iff_of_false (by simp) ?_
        intro hcon
        rcases hcon with hcon | ⟨fr2, v2, hfr2, hv2, hvne⟩
        · exact hnenil hcon
        · have hfr : fr = fr2 := by injection hfr2
          subst hfr
          subst hv2
          have hv2e : v2 = emptyS := by
            by_contra hv2e
            apply hmm
            simp [nextNameMismatch, hv2e, hvne]
          exact hne (by rw [hv2e])
  · intro fuel
    rfl

theorem c10_try (fuel : Nat) (st : St) (src : String) (n : ℚ)
    (hp : parseOf src = Res.ok (Ast.programLine n Stmt.rem))
    (ht : jsTrim src ≠ emptyS) :
    executeImmediate fuel src st =
      (if strIncludes src remS then
          {st with program := mapSet st.program n ⟨src, Stmt.rem⟩}
        else {st with program := mapDelete st.program n}, Res.ok ()) := by
  simp only [executeImmediate, ht, if_false, executeImmediateCore, hp, storeLine]
  by_cases hi : strIncludes src remS
  · simp [hi]
  · simp [hi]

theorem c3_try (fuel : Nat) (st : St) (s : String) (n : ℚ)
    (hp : parseOf s = Res.ok (Ast.stmt (Stmt.gotoS n)))
    (hn : mapHas st.program n = true)
    (ht : jsTrim s ≠ emptyS) :
    executeImmediate (fuel + 1) s st = ({st with nextLine := some n}, Res.ok ()) := by
  simp only [executeImmediate, ht, if_false, executeImmediateCore, hp]
  simp only [executeNode, executeGoto, hn, if_true]

theorem tokenizeLoop_no_stuck (fuel : Nat) : ∀ (l : List Char) (p : Nat),
    l.length < fuel → tokenizeLoop fuel l p ≠ Res.stuck := by
  induction fuel with
  | zero =>
    intro l p h
    omega
  | succ f ih =>
    intro l p h
    rcases l with _ | ⟨c, cs⟩
    · simp [tokenizeLoop]
    simp only [List.length_cons] at h
    have hcs : cs.length < f := by omega
    simp only [tokenizeLoop]
    by_cases h1 : c.isWhitespace = true
    · rw [if_pos h1]
      exact ih cs (p + 1) hcs
    rw [if_neg h1]
    by_cases h2 : c.isDigit = true
    · rw [if_pos h2]
      rcases hr : tokenizeLoop f (readNumber c cs).2
          (p + 1 + (cs.length - (readNumber c cs).2.length)) with ts | m | _
      · simp [hr]
      · simp [hr]
      · exact absurd hr (ih _ _ (by have := readNumber_rest_le c cs; omega))
    rw [if_neg h2]
    by_cases h3 : c = '"'
    · rw [if_pos h3]
      rcases hr : tokenizeLoop f (readStringLit cs).2
          (p + 1 + (cs.length - (readStringLit cs).2.length)) with ts | m | _
      · simp [hr]
      · simp [hr]
      · exact absurd hr (ih _ _ (by have := readStringLit_rest_le cs; omega))
    rw [if_neg h3]
    by_cases h4 : c.isAlpha = true
    · rw [if_pos h4]
      rcases hr : tokenizeLoop f (cs.dropWhile isWordChar)
          (p + 1 + (cs.length - (cs.dropWhile isWordChar).length)) with ts | m | _
      · simp [hr]
      · simp [hr]
      · exact absurd hr (ih _ _ (by have := dropWhile_len_le isWordChar cs; omega))
    rw [if_neg h4]
    rcases hop : readOperator c cs with _ | pr
    · by_cases h5 : punctuationList.contains c = true
      · rw [if_pos h5]
        rcases hr : tokenizeLoop f cs (p + 1) with ts | m | _
        · simp [hr]
        · simp [hr]
        · exact absurd hr (ih _ _ hcs)
      · rw [if_neg h5]
        simp
    · rcases hr : tokenizeLoop f pr.2 (p + 1 + (cs.length - pr.2.length)) with ts | m | _
      · simp [hr]
      · simp [hr]
      · exact absurd hr (ih _ _ (by have := readOperator_rest_le c cs pr hop; omega))

theorem tokenize_no_stuck (line : String) : tokenize line ≠ Res.stuck :=
  tokenizeLoop_no_stuck _ _ _ (by omega)


/-- An uppercase REM comment line is stored, completing the picture: the same
store operation keeps line 10 when the raw text contains REM. -/
theorem c10_upper_line_is_stored :
    strIncludes c10UpperLine remS = true ∧
    mapHas (executeImmediate 40 c10UpperLine initialSt).1.program 10 = true := by
  refine ⟨by decide, by decide⟩

/-! ## The claims -/

/-- Claim C1: refuted (code bug). The stored program 10 FOR I=1 TO 3, 20 PRINT I,
30 NEXT I does not terminate under RUN and never prints 2 or 3: NEXT jumps back
to the line the FOR frame recorded, which is the FOR line itself, so I is
re-initialised to 1 on every pass. For every fuel bound the driver is still
running, and the output after fuel 31 is the digit 1 on its own line over and
over. -/
theorem C1_for_next_run_loops_forever :
    (∀ fuel : Nat, (executeImmediate fuel lineRUN c1BaseSt).2 = Res.stuck) ∧
    (executeImmediate 31 lineRUN c1BaseSt).1.output = c1OutNine :=
  ⟨c1_nonterm, by decide⟩

/-- Claim C2: refuted (code bug). With line 10 stored, entering the bare line
number 10 does not delete the line: the parser raises Unexpected token: EOL
before the empty-body branch of storeLine can run, the REPL prints a syntax
error banner, and the program store is unchanged, line 10 included. -/
theorem C2_bare_line_number_errors_not_deletes :
    mapHas c2BaseSt.program 10 = true ∧
    executeImmediate 40 lineBare10 c2BaseSt =
      (stPrint msgBareLineOut c2BaseSt, Res.ok ()) ∧
    mapHas (executeImmediate 40 lineBare10 c2BaseSt).1.program 10 = true := by
  refine ⟨by decide, by decide, by decide⟩

/-- Claim C3 counterexample: immediate-mode GOTO 30 with line 30 present is not
a no-op for later operations. It records 30 as the pending jump target, and the
next RUN consumes the stale target after executing its first line, printing 1
then 3, whereas the same RUN without the preceding GOTO prints 1, 2, 3. -/
theorem C3_cex_stale_goto_changes_next_run :
    mapHas c3BaseSt.program 30 = true ∧
    c3BaseSt.running = false ∧
    (executeImmediate 40 lineGOTO30 c3BaseSt).1.nextLine = some 30 ∧
    (executeImmediate 40 lineRUN
        ((executeImmediate 40 lineGOTO30 c3BaseSt).1)).1.output = c3OutStale ∧
    (executeImmediate 40 lineRUN c3BaseSt).1.output = c3OutPlain ∧
    c3OutStale ≠ c3OutPlain := by
  refine ⟨by decide, by decide, by decide, by decide, by decide, by decide⟩

/-- Claim C3 (amended): an immediate-mode GOTO n whose target line n is present
performs the existence check and records n as the pending jump target; nothing
else in the state changes, but the recorded target persists and is observable
by, and consumed during, a later RUN. -/
theorem C3_goto_records_pending_target (fuel : Nat) (st : St) (s : String) (n : ℚ)
    (hp : parseOf s = Res.ok (Ast.stmt (Stmt.gotoS n)))
    (hn : mapHas st.program n = true)
    (ht : jsTrim s ≠ emptyS) :
    executeImmediate (fuel + 1) s st = ({st with nextLine := some n}, Res.ok ()) :=
  c3_try fuel st s n hp hn ht

/-- Witness: the amended GOTO theorem at the concrete line GOTO 30 on a store
holding lines 10, 20, 30. -/
theorem C3_goto_records_pending_target_witness :
    parseOf lineGOTO30 = Res.ok (Ast.stmt (Stmt.gotoS 30)) ∧
    mapHas c3BaseSt.program 30 = true ∧
    jsTrim lineGOTO30 ≠ emptyS ∧
    executeImmediate 40 lineGOTO30 c3BaseSt =
      ({c3BaseSt with nextLine := some 30}, Res.ok ()) :=
  ⟨by decide, by decide, by decide,
    C3_goto_records_pending_target 39 c3BaseSt lineGOTO30 30 (by decide) (by decide)
      (by decide)⟩

/-- Claim C4 counterexample: the failing line PRINT X;5/0 is caught and
reported, and the program store is unchanged, but the variable environment is
not exactly as before: reading X ahead of the failing division auto-vivifies X
to 0, and that binding persists after the error is reported. -/
theorem C4_cex_vars_mutated_on_failure :
    initialSt.vars = [] ∧
    (executeImmediate 40 c4Line initialSt).1.output =
      msgSynPre ++ msgDivZero ++ nlS ∧
    (executeImmediate 40 c4Line initialSt).1.vars = [(xName, Value.num 0)] := by
  refine ⟨by decide, by decide, by decide⟩

/-- Claim C4 (amended): when tokenizing, parsing, or evaluating an entered line
fails, the failure is caught and reported as the syntax error banner plus the
thrown message, the program store is exactly as before, and the variable
environment is as before except possibly extended with auto-vivified default
bindings created by variable reads performed before the failure. -/
theorem C4_failure_reported_store_kept (fuel : Nat) (line : String) (st st' : St)
    (m : String)
    (h : executeImmediateCore fuel line st = (st', Res.err m)) :
    st'.program = st.program ∧ VivExtends st.vars st'.vars ∧
    executeImmediate fuel line st =
      (stPrint (msgSynPre ++ m ++ nlS) st', Res.ok ()) :=
  c4_amended_try fuel line st st' m h

/-- Witness: the amended failure theorem at the concrete line PRINT X;5/0 on
the initial state. -/
theorem C4_failure_reported_store_kept_witness :
    executeImmediateCore 40 c4Line initialSt = (c4FailedSt, Res.err msgDivZero) ∧
    (c4FailedSt.program = initialSt.program ∧
      VivExtends initialSt.vars c4FailedSt.vars ∧
      executeImmediate 40 c4Line initialSt =
        (stPrint (msgSynPre ++ msgDivZero ++ nlS) c4FailedSt, Res.ok ())) :=
  ⟨by decide,
    C4_failure_reported_store_kept 40 c4Line initialSt c4FailedSt msgDivZero
      (by decide)⟩

/-- Claim C5: RUN on an empty program store fails fast. It prints the no
program message, executes no statement, and leaves the program store, the
variable environment and the loop stack unchanged; only the output grows, by
exactly that message. -/
theorem C5_run_empty_store_fails_fast (fuel : Nat) (st : St)
    (h : st.program = []) :
    run (fuel + 1) st = (stPrint msgNoProgram st, Res.ok ()) ∧
    executeImmediate (fuel + 2) lineRUN st = (stPrint msgNoProgram st, Res.ok ()) ∧
    (stPrint msgNoProgram st).program = st.program ∧
    (stPrint msgNoProgram st).vars = st.vars ∧
    (stPrint msgNoProgram st).forStack = st.forStack ∧
    (stPrint msgNoProgram st).output = st.output ++ msgNoProgram :=
  c5_try fuel st h

/-- Witness: the empty-store RUN theorem at the initial state. -/
theorem C5_run_empty_store_fails_fast_witness :
    initialSt.program = [] ∧
    (run 4 initialSt = (stPrint msgNoProgram initialSt, Res.ok ()) ∧
      executeImmediate 5 lineRUN initialSt =
        (stPrint msgNoProgram initialSt, Res.ok ()) ∧
      (stPrint msgNoProgram initialSt).program = initialSt.program ∧
      (stPrint msgNoProgram initialSt).vars = initialSt.vars ∧
      (stPrint msgNoProgram initialSt).forStack = initialSt.forStack ∧
      (stPrint msgNoProgram initialSt).output =
        initialSt.output ++ msgNoProgram) :=
  ⟨rfl, C5_run_empty_store_fails_fast 3 initialSt rfl⟩

/-- Claim C6: a division whose operands evaluate to numbers a and b raises the
division by zero error exactly when b is zero, and otherwise yields the exact
quotient of a by b. -/
theorem C6_division_by_zero_iff (st st1 st2 : St) (l r : Expr) (a b : ℚ)
    (hl : evaluate l st = (st1, Res.ok (Value.num a)))
    (hr : evaluate r st1 = (st2, Res.ok (Value.num b))) :
    evaluate (Expr.binary opSlashS l r) st =
      (st2, if b = 0 then Res.err msgDivZero else Res.ok (Value.num (qDiv a b))) :=
  c6_try st st1 st2 l r a b hl hr

/-- Witness: the division theorem at the literal quotient 5 over 0. -/
theorem C6_division_by_zero_iff_witness :
    evaluate (Expr.numLit 5) initialSt = (initialSt, Res.ok (Value.num 5)) ∧
    evaluate (Expr.numLit 0) initialSt = (initialSt, Res.ok (Value.num 0)) ∧
    evaluate (Expr.binary opSlashS (Expr.numLit 5) (Expr.numLit 0)) initialSt =
      (initialSt,
        if (0 : ℚ) = 0 then Res.err msgDivZero
        else Res.ok (Value.num (qDiv 5 0))) :=
  ⟨rfl, rfl,
    C6_division_by_zero_iff initialSt initialSt initialSt (Expr.numLit 5)
      (Expr.numLit 0) 5 0 rfl rfl⟩

/-- Claim C7: NEXT raises the next without for error exactly when the loop
stack is empty or an explicitly named variable differs from the variable of the
frame the interpreter consults, and the RUN driver dispatches NEXT to the very
same executeNext, so the behaviour inside RUN and in immediate mode is one and
the same. The interpreter consults the last frame pushed. -/
theorem C7_next_without_for_iff (nv : Option String) (st : St)
    (hne : nv ≠ some emptyS) :
    ((executeNext nv st).2 = Res.err msgNextWithoutFor ↔
      st.forStack = [] ∨
        ∃ fr v, st.forStack.getLast? = some fr ∧ nv = some v ∧ v ≠ fr.varName) ∧
    (∀ fuel, executeNode (fuel + 1) (Stmt.nextS nv) st = executeNext nv st) :=
  c7_try nv st hne

/-- Witness: the NEXT theorem at NEXT I on the initial state, whose loop stack
is empty. -/
theorem C7_next_without_for_iff_witness :
    some iName ≠ some emptyS ∧
    (((executeNext (some iName) initialSt).2 = Res.err msgNextWithoutFor ↔
      initialSt.forStack = [] ∨
        ∃ fr v, initialSt.forStack.getLast? = some fr ∧ some iName = some v ∧
          v ≠ fr.varName) ∧
    (∀ fuel, executeNode (fuel + 1) (Stmt.nextS (some iName)) initialSt =
      executeNext (some iName) initialSt)) :=
  ⟨by decide, C7_next_without_for_iff (some iName) initialSt (by decide)⟩

/-- Claim C8: reading a variable that is not bound does not error: it yields
and binds the default, the number 0 for a name without the dollar suffix and
the empty string for a name with it. -/
theorem C8_unset_variable_vivifies (st : St) (n : String)
    (h : lookupVar st.vars n = none) :
    evaluate (Expr.varE n) st =
      ({st with vars := st.vars ++ [(n, vivify n)]}, Res.ok (vivify n)) ∧
    (endsDollar n = false → vivify n = Value.num 0) ∧
    (endsDollar n = true → vivify n = Value.str emptyS) :=
  c8_try st n h

/-- Witness: the auto-vivification theorem at the unbound name X on the initial
state. -/
theorem C8_unset_variable_vivifies_witness :
    lookupVar initialSt.vars xName = none ∧
    (evaluate (Expr.varE xName) initialSt =
      ({initialSt with vars := initialSt.vars ++ [(xName, vivify xName)]},
        Res.ok (vivify xName)) ∧
    (endsDollar xName = false → vivify xName = Value.num 0) ∧
    (endsDollar xName = true → vivify xName = Value.str emptyS)) :=
  ⟨by decide, C8_unset_variable_vivifies initialSt xName (by decide)⟩

/-- Claim C9: any sequence of print, println and clear operations keeps the
screen a grid of ROWS rows of COLS characters with the cursor row inside the
grid, and a newline issued on the last row discards the earliest row, appends a
blank row at the bottom and keeps the cursor on the last row. -/
theorem C9_screen_shape_invariant (ops : List ScreenOp) (sc : ScreenSt)
    (h : ScreenInv sc) :
    ScreenInv (applyScreenOps ops sc) ∧
    (sc.cursorY = screenROWS - 1 →
      screenNewline sc = ⟨sc.buffer.tail ++ [blankRow], 0, screenROWS - 1⟩) :=
  ⟨screenInv_ops ops sc h, fun hy => scrollNewlineShape sc hy⟩

/-- Witness: the screen theorem at one println on a blank screen whose cursor
sits on the last row. -/
theorem C9_screen_shape_invariant_witness :
    ScreenInv c9Sc ∧
    (ScreenInv (applyScreenOps [ScreenOp.doPrintln hiS] c9Sc) ∧
      (c9Sc.cursorY = screenROWS - 1 →
        screenNewline c9Sc = ⟨c9Sc.buffer.tail ++ [blankRow], 0, screenROWS - 1⟩)) :=
  ⟨⟨by decide, by decide, by decide⟩,
    C9_screen_shape_invariant [ScreenOp.doPrintln hiS] c9Sc
      ⟨by decide, by decide, by decide⟩⟩

/-- Claim C10: a numbered line whose statement parses to REM is stored only
when the raw source text contains the uppercase substring REM; otherwise the
line number is deleted from the store, so a lowercase comment such as
10 rem hello erases line 10. -/
theorem C10_rem_stored_only_if_uppercase (fuel : Nat) (st : St) (src : String)
    (n : ℚ)
    (hp : parseOf src = Res.ok (Ast.programLine n Stmt.rem))
    (ht : jsTrim src ≠ emptyS) :
    executeImmediate fuel src st =
      (if strIncludes src remS then
          {st with program := mapSet st.program n ⟨src, Stmt.rem⟩}
        else {st with program := mapDelete st.program n}, Res.ok ()) :=
  c10_try fuel st src n hp ht

/-- Witness: the REM theorem at the lowercase line 10 rem hello entered over a
store holding line 10, which it deletes. -/
theorem C10_rem_stored_only_if_uppercase_witness :
    parseOf c10LowerLine = Res.ok (Ast.programLine 10 Stmt.rem) ∧
    jsTrim c10LowerLine ≠ emptyS ∧
    strIncludes c10LowerLine remS = false ∧
    executeImmediate 40 c10LowerLine c2BaseSt =
      (if strIncludes c10LowerLine remS then
          {c2BaseSt with program := mapSet c2BaseSt.program 10 ⟨c10LowerLine, Stmt.rem⟩}
        else {c2BaseSt with program := mapDelete c2BaseSt.program 10},
        Res.ok ()) :=
  ⟨by decide, by decide, by decide,
    C10_rem_stored_only_if_uppercase 40 c2BaseSt c10LowerLine 10 (by decide)
      (by decide)⟩
